import Mathlib

/-!
Verification development for the asg-server notification pipeline.

The Go sources are embedded shallowly:
* `pkg/cache/memory.go` (plus the cache options source) becomes the
  `cache` namespace: a memory cache over an association-list table,
  with explicit `now : Int` arguments replacing calls to `time.Now()`.
  Go's `time.Time` is modelled as `Int`, with `0` playing the role of
  the zero `time.Time` (the "never expires" marker) and `After`
  becoming `<` on the model; durations are `Int` as well.
* the push dispatcher (`modules/push`), SSE hub (`modules/sse`) and
  event router (`modules/events`) become the namespaces `push`, `sse`
  and `events`, with channels modelled as bounded lists and each
  goroutine-visible step modelled as a pure state transformer.

Go maps with string keys are modelled as association lists with
operations `lookupA` / `insertA` / `eraseA`; tables built only through
these operations have pairwise distinct keys (`KeysNodup`).
-/

namespace AsgServer

/-! ## Association-list model of a Go map with string keys -/

/-- Lookup in an association-list map, first binding wins (Go map read). -/
def lookupA {α : Type} : List (String × α) → String → Option α
  | [], _ => none
  | p :: rest, k => if p.1 = k then some p.2 else lookupA rest k

/-- Remove every binding of a key (Go `delete(m, k)`). -/
def eraseA {α : Type} : List (String × α) → String → List (String × α)
  | [], _ => []
  | p :: rest, k => if p.1 = k then eraseA rest k else p :: eraseA rest k

/-- Overwrite the binding of a key (Go `m[k] = v`). -/
def insertA {α : Type} (t : List (String × α)) (k : String) (v : α) : List (String × α) :=
  (k, v) :: eraseA t k

/-- Remove the entries whose payloads satisfy an expiry predicate
(the body of the `for ... delete` loop of `memoryCache.cleanup`). -/
def dropExpired {α : Type} (expired : α → Bool) : List (String × α) → List (String × α)
  | [] => []
  | p :: rest =>
    if expired p.2 then dropExpired expired rest else p :: dropExpired expired rest

/-- The keys of the table are pairwise distinct (every Go map satisfies this). -/
abbrev KeysNodup {α : Type} (t : List (String × α)) : Prop :=
  (t.map Prod.fst).Nodup

/-! ## `pkg/cache`: errors, options and the in-memory backend

Translated from `pkg/cache/errors.go`, the options source and
`pkg/cache/memory.go`.  `time.Time` is an `Int` whose zero value is the
Go zero time; `time.Now()` becomes an explicit `now : Int` argument
threaded through each operation. -/

namespace cache

/-- The sentinel errors of `pkg/cache/errors.go`. -/
inductive CacheError : Type
  | keyNotFound
  | keyExpired
  | keyExists
deriving DecidableEq, Repr

/-- `memoryItem`: a stored value with its expiry instant
(`validUntil = 0` encodes the zero `time.Time`, i.e. no expiry). -/
structure memoryItem where
  value : String
  validUntil : Int
deriving DecidableEq, Repr

/-- `memoryItem.isExpired`: `!i.validUntil.IsZero() && now.After(i.validUntil)`. -/
def memoryItem.isExpired (i : memoryItem) (now : Int) : Bool :=
  i.validUntil ≠ 0 && i.validUntil < now

/-- The `options` struct of the cache options source. -/
structure options where
  validUntil : Int
deriving DecidableEq, Repr

/-- `Option` in the Go source: a mutator of `options`. -/
abbrev CacheOption : Type := options → options

/-- `options.apply`: apply each option in order. -/
def options.apply (o : options) (opts : List CacheOption) : options :=
  opts.foldl (fun acc f => f acc) o

/-- `WithTTL(ttl)`.  The Go body assigns the zero time when `ttl <= 0`
and then unconditionally assigns `time.Now().Add(ttl)`; both
assignments are kept, in source order.  `now` is the instant at which
the option is applied (the `time.Now()` inside the closure). -/
def WithTTL (ttl : Int) (now : Int) : CacheOption := fun o =>
  let o1 := if ttl ≤ 0 then { o with validUntil := 0 } else o
  { o1 with validUntil := now + ttl }

/-- `WithValidUntil(validUntil)`: absolute expiry. -/
def WithValidUntil (validUntil : Int) : CacheOption := fun o =>
  { o with validUntil := validUntil }

/-- The package-level `newItem` constructor. -/
def newItem (value : String) (o : options) : memoryItem :=
  { value := value, validUntil := o.validUntil }

/-- `memoryCache`: the table plus the instance-level default TTL. -/
structure memoryCache where
  items : List (String × memoryItem)
  ttl : Int
deriving DecidableEq, Repr

/-- `NewMemory(ttl)`. -/
def NewMemory (ttl : Int) : memoryCache :=
  { items := [], ttl := ttl }

/-- `memoryCache.newItem`: default expiry from the instance TTL (only
when positive), then the per-call options. -/
def memoryCache.newItem (m : memoryCache) (now : Int) (value : String)
    (opts : List CacheOption) : memoryItem :=
  let o : options := { validUntil := 0 }
  let o := if m.ttl > 0 then { o with validUntil := now + m.ttl } else o
  let o := o.apply opts
  AsgServer.cache.newItem value o

/-- `memoryCache.Set`: unconditional upsert. -/
def memoryCache.Set (m : memoryCache) (now : Int) (key value : String)
    (opts : List CacheOption) : memoryCache :=
  { m with items := insertA m.items key (m.newItem now value opts) }

/-- `memoryCache.SetOrFail`: fail with `KeyExists` when a non-expired
entry is present, otherwise store like `Set`. -/
def memoryCache.SetOrFail (m : memoryCache) (now : Int) (key value : String)
    (opts : List CacheOption) : Except CacheError memoryCache :=
  match lookupA m.items key with
  | some item =>
    if item.isExpired now then
      Except.ok { m with items := insertA m.items key (m.newItem now value opts) }
    else
      Except.error CacheError.keyExists
  | none => Except.ok { m with items := insertA m.items key (m.newItem now value opts) }

/-- `memoryCache.getItem`: the shared lookup-result classifier. -/
def getItem (item? : Option memoryItem) (now : Int) : Except CacheError memoryItem :=
  match item? with
  | none => Except.error CacheError.keyNotFound
  | some item =>
    if item.isExpired now then Except.error CacheError.keyExpired else Except.ok item

/-- `memoryCache.getValue`: project the stored string out of `getItem`. -/
def getValue (item? : Option memoryItem) (now : Int) : Except CacheError String :=
  (getItem item? now).map memoryItem.value

/-- `memoryCache.Get`: read-only getter — the table is returned unchanged. -/
def memoryCache.Get (m : memoryCache) (key : String) (now : Int) :
    Except CacheError String × memoryCache :=
  (getValue (lookupA m.items key) now, m)

/-- `memoryCache.GetAndDelete`: the getter deletes the key unconditionally. -/
def memoryCache.GetAndDelete (m : memoryCache) (key : String) (now : Int) :
    Except CacheError String × memoryCache :=
  (getValue (lookupA m.items key) now, { m with items := eraseA m.items key })

/-- `memoryCache.Delete`: idempotent removal. -/
def memoryCache.Delete (m : memoryCache) (key : String) : memoryCache :=
  { m with items := eraseA m.items key }

/-- `memoryCache.cleanup`: drop every expired entry. -/
def memoryCache.cleanup (m : memoryCache) (now : Int) : memoryCache :=
  { m with items := dropExpired (fun i => i.isExpired now) m.items }

/-- `memoryCache.Cleanup`. -/
def memoryCache.Cleanup (m : memoryCache) (now : Int) : memoryCache :=
  m.cleanup now

/-- `memoryCache.Drain`: cleanup, snapshot the remaining table as a flat
key-to-value map, and swap in an empty table. -/
def memoryCache.Drain (m : memoryCache) (now : Int) :
    List (String × String) × memoryCache :=
  let cpy := dropExpired (fun i => i.isExpired now) m.items
  (cpy.map fun p => (p.1, p.2.value), { m with items := [] })

end cache

/-! ## `modules/sse`: the SSE hub

Translated from `internal/sms-gateway/modules/sse/service.go`.  A
channel of capacity 8 becomes a list of at most 8 frames; the
non-blocking `select` of `Send` becomes `trySend`.  Go marshals
`event.Data` to JSON (which cannot fail for a `map[string]string`);
the model keeps the map itself as the frame payload. -/

namespace sse

/-- `sse.Event`. -/
structure Event where
  type : String
  data : List (String × String)
deriving DecidableEq, Repr

/-- `sse.eventWrapper`: the frame queued on a connection's channel. -/
structure eventWrapper where
  name : String
  data : List (String × String)
deriving DecidableEq, Repr

/-- The outbound channel capacity of a connection
(`make(chan eventWrapper, 8)` in `registerConnection`). -/
def channelCapacity : Nat := 8

/-- `sseConnection`: `closeSignal = true` models a closed
`closeSignal` channel. -/
structure sseConnection where
  id : String
  channel : List eventWrapper
  closeSignal : Bool
deriving DecidableEq, Repr

/-- The error outcomes of `Service.Send` (`fmt.Errorf` values in Go). -/
inductive SendError : Type
  | noConnection
  | marshalError
  | noActiveConnection
deriving DecidableEq, Repr

/-- The `select` of the send loop for one connection.  For a live
connection exactly one case is ready — the buffered send when the
channel has space, otherwise `default` — so the model is deterministic
there; for an already-closed connection Go may pick either the
`closeSignal` case or the send, and the model takes the close branch
(the claims only concern live connections). -/
def trySend (ev : eventWrapper) (c : sseConnection) : Bool × sseConnection :=
  if c.closeSignal then (false, c)
  else if c.channel.length < channelCapacity then
    (true, { c with channel := c.channel ++ [ev] })
  else (false, c)

/-- The `for _, conn := range connections` loop of `Send`: deliver to
each connection, counting the accepted sends. -/
def sendLoop (ev : eventWrapper) : List sseConnection → Nat × List sseConnection
  | [] => (0, [])
  | c :: rest =>
    let r := trySend ev c
    let rr := sendLoop ev rest
    ((if r.1 then 1 else 0) + rr.1, r.2 :: rr.2)

/-- `sse.Service`: the per-device connection registry. -/
structure Service where
  connections : List (String × List sseConnection)
deriving DecidableEq, Repr

/-- `Service.Send`: no registry entry for the device is an immediate
`noConnection` error; otherwise deliver to every connection and fail
with `noActiveConnection` iff zero connections accepted the frame. -/
def Service.Send (s : Service) (deviceID : String) (event : Event) :
    Except SendError Unit × Service :=
  match lookupA s.connections deviceID with
  | none => (Except.error SendError.noConnection, s)
  | some conns =>
    let r := sendLoop { name := event.type, data := event.data } conns
    let connections1 := insertA s.connections deviceID r.2
    if r.1 = 0 then (Except.error SendError.noActiveConnection, { connections := connections1 })
    else (Except.ok (), { connections := connections1 })

end sse

/-! ## `modules/push`: the push dispatcher

Translated from the push service source (`Enqueue`, the per-token
error handling of `sendAll`) and `modules/push/types.go`.  The
dispatcher stores its pending items and its blacklist in the external
`go-helpers` cache, whose source is not part of this repository; that
backend is modelled from the spec's §4.1 ExpiringCache contract. -/

namespace push

/-- `types.Event`: a push event (type plus string map payload). -/
structure Event where
  type : String
  data : List (String × String)
deriving DecidableEq, Repr

/-- `eventWrapper` of `modules/push/types.go`: the pending item stored
per token.  `event` is a pointer in Go; `none` models `nil`. -/
structure eventWrapper where
  token : String
  event : Option Event
  retries : Nat
deriving DecidableEq, Repr

/-- Modelled from the spec: an entry of the external `go-helpers`
generic expiring cache used by the push dispatcher (the library source
is not in this repository).  Same shape as `cache.memoryItem`:
`validUntil = 0` means no expiry, per §3 of the spec. -/
structure CacheItem (α : Type) where
  value : α
  validUntil : Int
deriving DecidableEq, Repr

/-- Modelled from the spec: expiry test of the external cache
(`validUntil` zero means never expires, otherwise expired once past). -/
def CacheItem.isExpired {α : Type} (i : CacheItem α) (now : Int) : Bool :=
  i.validUntil ≠ 0 && i.validUntil < now

/-- A table of the external generic cache. -/
abbrev CacheTable (α : Type) : Type := List (String × CacheItem α)

/-- Modelled from the spec: `Get` of the external cache — `KeyNotFound`
if absent, `KeyExpired` if past expiry, else the value (§4.1). -/
def cacheGet {α : Type} (t : CacheTable α) (k : String) (now : Int) :
    Except cache.CacheError α :=
  match lookupA t k with
  | none => Except.error cache.CacheError.keyNotFound
  | some i =>
    if i.isExpired now then Except.error cache.CacheError.keyExpired
    else Except.ok i.value

/-- Modelled from the spec: `Set` of the external cache — unconditional
upsert, expiry from the instance TTL when positive (§4.1). -/
def cacheSet {α : Type} (ttl : Int) (t : CacheTable α) (now : Int) (k : String) (v : α) :
    CacheTable α :=
  insertA t k { value := v, validUntil := if ttl > 0 then now + ttl else 0 }

/-- Modelled from the spec: `SetOrFail` of the external cache — fails
with `KeyExists` iff a non-expired entry exists, else like `Set` (§4.1). -/
def cacheSetOrFail {α : Type} (ttl : Int) (t : CacheTable α) (now : Int) (k : String)
    (v : α) : Except cache.CacheError (CacheTable α) :=
  match lookupA t k with
  | some i =>
    if i.isExpired now then Except.ok (cacheSet ttl t now k v)
    else Except.error cache.CacheError.keyExists
  | none => Except.ok (cacheSet ttl t now k v)

/-- Modelled from the spec: `Drain` of the external cache — drop the
expired entries, return the rest as a flat map, leave an empty table
(§4.1). -/
def cacheDrain {α : Type} (t : CacheTable α) (now : Int) :
    List (String × α) × CacheTable α :=
  ((dropExpired (fun i => i.isExpired now) t).map fun p => (p.1, p.2.value), [])

/-- `push.Service` state: the pending-item cache (instance TTL 0, from
`cache.New[eventWrapper](cache.Config{})`) and the blacklist cache
(instance TTL `blacklistTimeout`). -/
structure Service where
  cache : CacheTable eventWrapper
  blacklist : CacheTable Unit
deriving DecidableEq, Repr

/-- `Service.Enqueue`: drop silently when the token is blacklisted
(a non-expired blacklist entry is present), otherwise upsert a pending
item with `retries = 0` via `Set`.  The Go method returns an error only
when the cache `Set` fails, which the in-memory backend never does, so
the model returns the new state and no error value. -/
def Service.Enqueue (s : Service) (now : Int) (token : String) (event : Event) : Service :=
  match cacheGet s.blacklist token now with
  | Except.ok _ => s
  | Except.error _ =>
    { s with cache :=
        cacheSet 0 s.cache now token { token := token, event := some event, retries := 0 } }

/-- The first two lines of the per-token error loop of `sendAll`:
`wrapper := targets[token]; wrapper.retries++`.  A token absent from
`targets` yields Go's zero `eventWrapper`. -/
def incrementedWrapper (targets : List (String × eventWrapper)) (token : String) :
    eventWrapper :=
  let w := (lookupA targets token).getD { token := "", event := none, retries := 0 }
  { w with retries := w.retries + 1 }

/-- The body of the per-token error loop of `sendAll`: increment the
retry count; at `maxRetries` blacklist the token (fixed TTL
`blacklistTimeout`) and drop the item, otherwise re-insert it via
`SetOrFail` (a failure of which is only logged). -/
def Service.handleTokenError (maxRetries : Nat) (blacklistTimeout now : Int)
    (targets : List (String × eventWrapper)) (s : Service) (token : String) : Service :=
  let wrapper := incrementedWrapper targets token
  if wrapper.retries ≥ maxRetries then
    { s with blacklist := cacheSet blacklistTimeout s.blacklist now token () }
  else
    match cacheSetOrFail 0 s.cache now token wrapper with
    | Except.ok t => { s with cache := t }
    | Except.error _ => s

/-- The per-token error loop of `sendAll` over the transport's error
map (one entry per failing token). -/
def Service.sendAllErrors (maxRetries : Nat) (blacklistTimeout now : Int)
    (targets : List (String × eventWrapper)) (errs : List String) (s : Service) : Service :=
  errs.foldl (Service.handleTokenError maxRetries blacklistTimeout now targets) s

end push

/-! ## `modules/events`: the event router

Translated from the events service source: the ingress queue is the
buffered channel `make(chan eventWrapper, 128)` of `NewService`, and
`Notify` is its non-blocking `select { case s.queue <- wrapper: ...
default: return error }`. -/

namespace events

/-- `events.Event` (unexported fields `eventType`, `data`). -/
structure Event where
  eventType : String
  data : List (String × String)
deriving DecidableEq, Repr

/-- `events.eventWrapper`: a queued event. -/
structure eventWrapper where
  UserID : String
  DeviceID : Option String
  Event : Event
deriving DecidableEq, Repr

/-- The ingress queue capacity (`make(chan eventWrapper, 128)`). -/
def queueCapacity : Nat := 128

/-- The `Notify` failure (`fmt.Errorf("event queue is full")`). -/
inductive NotifyError : Type
  | queueFull
deriving DecidableEq, Repr

/-- `events.Service`: the state visible to `Notify` — the buffered
ingress queue (consumer side runs in `Run`, not modelled here). -/
structure Service where
  queue : List eventWrapper
deriving DecidableEq, Repr

/-- `Service.Notify`: non-blocking bounded enqueue — `select` succeeds
iff the buffer has space, `default` returns the queue-full error. -/
def Service.Notify (s : Service) (userID : String) (deviceID : Option String)
    (event : Event) : Except NotifyError Unit × Service :=
  let wrapper : eventWrapper := { UserID := userID, DeviceID := deviceID, Event := event }
  if s.queue.length < queueCapacity then (Except.ok (), { queue := s.queue ++ [wrapper] })
  else (Except.error NotifyError.queueFull, s)

end events

/-! ## Lemmas about the association-list map and the send loop -/

@[simp] theorem lookupA_nil {α : Type} (k : String) : lookupA ([] : List (String × α)) k = none := rfl

theorem lookupA_cons {α : Type} (p : String × α) (rest : List (String × α)) (k : String) :
    lookupA (p :: rest) k = if p.1 = k then some p.2 else lookupA rest k := rfl

theorem lookupA_eraseA_self {α : Type} (t : List (String × α)) (k : String) :
    lookupA (eraseA t k) k = none := by
  induction t with
  | nil => rfl
  | cons p rest ih =>
    by_cases h : p.1 = k <;> simp [eraseA, lookupA, h, ih]

theorem lookupA_eraseA_ne {α : Type} (t : List (String × α)) (k k' : String) (h : k' ≠ k) :
    lookupA (eraseA t k) k' = lookupA t k' := by
  induction t with
  | nil => rfl
  | cons p rest ih =>
    by_cases hp : p.1 = k
    · subst hp
      have hne : p.1 ≠ k' := fun hc => h hc.symm
      simp [eraseA, lookupA, hne, ih]
    · simp [eraseA, lookupA, hp, ih]

@[simp] theorem lookupA_insertA_self {α : Type} (t : List (String × α)) (k : String) (v : α) :
    lookupA (insertA t k v) k = some v := by
  simp [insertA, lookupA]

theorem lookupA_insertA_ne {α : Type} (t : List (String × α)) (k k' : String) (v : α)
    (h : k' ≠ k) : lookupA (insertA t k v) k' = lookupA t k' := by
  have hne : k ≠ k' := fun hc => h hc.symm
  simp [insertA, lookupA, hne, lookupA_eraseA_ne t k k' h]

theorem lookupA_eq_none_of_not_mem {α : Type} (t : List (String × α)) (k : String)
    (h : k ∉ t.map Prod.fst) : lookupA t k = none := by
  induction t with
  | nil => rfl
  | cons p rest ih =>
    simp only [List.map_cons, List.mem_cons] at h
    push_neg at h
    have : p.1 ≠ k := fun hc => h.1 hc.symm
    simp [lookupA, this, ih h.2]

theorem lookupA_dropExpired_none {α : Type} (q : α → Bool) (t : List (String × α)) (k : String)
    (h : lookupA t k = none) : lookupA (dropExpired q t) k = none := by
  induction t with
  | nil => rfl
  | cons p rest ih =>
    rw [lookupA_cons] at h
    by_cases hp : p.1 = k
    · simp [hp] at h
    · simp only [hp, if_false] at h
      by_cases hq : q p.2 <;> simp [dropExpired, lookupA, hp, hq, ih h]

/-- On a table with distinct keys, dropping expired entries acts pointwise on lookups. -/
theorem lookupA_dropExpired {α : Type} (q : α → Bool) (t : List (String × α)) (k : String)
    (h : KeysNodup t) :
    lookupA (dropExpired q t) k =
      match lookupA t k with
      | some v => if q v then none else some v
      | none => none := by
  induction t with
  | nil => rfl
  | cons p rest ih =>
    have hrest : KeysNodup rest := by
      have := h
      simp only [KeysNodup, List.map_cons, List.nodup_cons] at this
      exact this.2
    have hhead : p.1 ∉ rest.map Prod.fst := by
      have := h
      simp only [KeysNodup, List.map_cons, List.nodup_cons] at this
      exact this.1
    by_cases hp : p.1 = k
    · subst hp
      have hnone : lookupA rest p.1 = none := lookupA_eq_none_of_not_mem rest p.1 hhead
      by_cases hq : q p.2
      · simp [dropExpired, lookupA, hq, lookupA_dropExpired_none q rest p.1 hnone]
      · simp [dropExpired, lookupA, hq]
    · by_cases hq : q p.2
      · simp [dropExpired, lookupA, hp, hq, ih hrest]
      · simp [dropExpired, lookupA, hp, hq, ih hrest]

theorem lookupA_map_value {α β : Type} (f : α → β) (t : List (String × α)) (k : String) :
    lookupA (t.map fun p => (p.1, f p.2)) k = (lookupA t k).map f := by
  induction t with
  | nil => rfl
  | cons p rest ih =>
    by_cases hp : p.1 = k <;> simp [lookupA, hp, ih]

namespace sse

theorem sendLoop_snd (ev : eventWrapper) (conns : List sseConnection) :
    (sendLoop ev conns).2 = conns.map fun c => (trySend ev c).2 := by
  induction conns with
  | nil => rfl
  | cons c rest ih => simp [sendLoop, ih]

theorem sendLoop_fst_zero_of_closed (ev : eventWrapper) (conns : List sseConnection)
    (h : ∀ c ∈ conns, c.closeSignal = true) : (sendLoop ev conns).1 = 0 := by
  induction conns with
  | nil => rfl
  | cons c rest ih =>
    have hc : c.closeSignal = true := h c (by simp)
    have hrest : (sendLoop ev rest).1 = 0 := ih fun x hx => h x (by simp [hx])
    simp [sendLoop, trySend, hc, hrest]

end sse

/-! ## Cache claims -/

open cache

/-- C1: the claim states that `WithTTL(d)` with `d ≤ 0` yields an entry
with no expiry.  The code contradicts this (and its own dead
`ttl <= 0` branch): the zero-time assignment is unconditionally
overwritten by `now + ttl`, so a `Set` with `WithTTL(-10)` at instant
100 stores `validUntil = 90` and the entry is already expired at the
moment of insertion — `Get` reports `KeyExpired` instead of a
never-expiring entry. -/
theorem C1_withTTL_nonpositive_already_expired :
    lookupA (((NewMemory 0).Set 100 "a" "v" [WithTTL (-10) 100]).items) "a" =
      some { value := "v", validUntil := 90 } ∧
    ((((NewMemory 0).Set 100 "a" "v" [WithTTL (-10) 100])).Get "a" 100).1 =
      Except.error CacheError.keyExpired := by
  constructor
  · decide
  · rfl

/-- C2: `Drain` removes the expired entries, returns exactly the
non-expired ones as a key-to-value map, leaves an empty table behind,
and any subsequent `Get` reports `KeyNotFound`. -/
theorem C2_drain_snapshot_and_empty (m : memoryCache) (now now2 : Int) (k : String)
    (h : KeysNodup m.items) :
    lookupA (m.Drain now).1 k =
      (match lookupA m.items k with
        | some i => if i.isExpired now then none else some i.value
        | none => none) ∧
    (m.Drain now).2.items = [] ∧
    ((m.Drain now).2.Get k now2).1 = Except.error CacheError.keyNotFound := by
  refine ⟨?_, rfl, rfl⟩
  show lookupA ((dropExpired (fun i => i.isExpired now) m.items).map
      fun p => (p.1, p.2.value)) k = _
  rw [lookupA_map_value, lookupA_dropExpired _ _ _ h]
  cases hl : lookupA m.items k with
  | none => rfl
  | some i => by_cases hi : i.isExpired now <;> simp [hi]

/-- Witness for C2 at the spec's scenario 3: one live entry `"a"` and
one already-expired entry `"b"`; `Drain` at instant 10 omits `"b"`,
empties the table, and the follow-up `Get "b"` is `KeyNotFound`. -/
theorem C2_drain_snapshot_and_empty_witness :
    lookupA ((cache.memoryCache.Drain ⟨[("a", ⟨"1", 0⟩), ("b", ⟨"2", 5⟩)], 0⟩ 10).1) "b" =
      none ∧
    (cache.memoryCache.Drain ⟨[("a", ⟨"1", 0⟩), ("b", ⟨"2", 5⟩)], 0⟩ 10).2.items = [] ∧
    ((cache.memoryCache.Drain ⟨[("a", ⟨"1", 0⟩), ("b", ⟨"2", 5⟩)], 0⟩ 10).2.Get "b" 10).1 =
      Except.error CacheError.keyNotFound :=
  C2_drain_snapshot_and_empty ⟨[("a", ⟨"1", 0⟩), ("b", ⟨"2", 5⟩)], 0⟩ 10 10 "b" (by decide)

/-- C3: `SetOrFail` fails with `KeyExists` exactly when a non-expired
entry for the key is present; in every other case it succeeds and the
resulting cache is exactly what `Set` would have produced. -/
theorem C3_setOrFail_iff_live_entry (m : memoryCache) (now : Int) (k v : String)
    (opts : List CacheOption) :
    (m.SetOrFail now k v opts = Except.error CacheError.keyExists ↔
      ∃ i, lookupA m.items k = some i ∧ i.isExpired now = false) ∧
    (∀ m2, m.SetOrFail now k v opts = Except.ok m2 → m2 = m.Set now k v opts) := by
  unfold memoryCache.SetOrFail
  cases hl : lookupA m.items k with
  | none =>
    constructor
    · constructor
      · intro hc
        cases hc
      · rintro ⟨i, hi, -⟩
        cases hi
    · intro m2 h
      injection h with h2
      subst h2
      rfl
  | some i =>
    dsimp only
    by_cases hi : i.isExpired now = true
    · rw [if_pos hi]
      constructor
      · constructor
        · intro hc
          cases hc
        · rintro ⟨j, hj, hje⟩
          injection hj with hj2
          subst hj2
          rw [hi] at hje
          cases hje
      · intro m2 h
        injection h with h2
        subst h2
        rfl
    · rw [if_neg hi]
      have hif : i.isExpired now = false := by
        cases hb : i.isExpired now
        · rfl
        · exact absurd hb hi
      constructor
      · constructor
        · intro _
          exact ⟨i, rfl, hif⟩
        · intro _
          rfl
      · intro m2 h
        cases h

/-- Witness for C3: an expired entry for `"a"` is overwritten and the
result coincides with a plain `Set`. -/
theorem C3_setOrFail_iff_live_entry_witness :
    (⟨[("a", ⟨"v", 0⟩)], 0⟩ : memoryCache) =
      cache.memoryCache.Set ⟨[("a", ⟨"1", 5⟩)], 0⟩ 10 "a" "v" [] :=
  (C3_setOrFail_iff_live_entry ⟨[("a", ⟨"1", 5⟩)], 0⟩ 10 "a" "v" []).2
    ⟨[("a", ⟨"v", 0⟩)], 0⟩ (by rfl)

/-- C8: a `Get` performed after `Set k v` with `WithTTL d` returns `v`
as long as the TTL has not elapsed (and nothing removed the entry in
between — here the two operations are consecutive). -/
theorem C8_get_after_set (m : memoryCache) (k v : String) (d now1 now2 : Int)
    (hd : 0 < d) (h2 : now2 ≤ now1 + d) :
    ((m.Set now1 k v [WithTTL d now1]).Get k now2).1 = Except.ok v := by
  show getValue (lookupA (insertA m.items k (m.newItem now1 v [WithTTL d now1])) k) now2 = _
  rw [lookupA_insertA_self]
  have hexp : (m.newItem now1 v [WithTTL d now1]).isExpired now2 = false := by
    show (decide ((now1 + d : Int) ≠ 0) && decide ((now1 + d : Int) < now2)) = false
    have h3 : ¬((now1 + d : Int) < now2) := not_lt.mpr h2
    simp [h3]
  show Except.map memoryItem.value
      (if (m.newItem now1 v [WithTTL d now1]).isExpired now2 = true then
        Except.error CacheError.keyExpired
      else Except.ok (m.newItem now1 v [WithTTL d now1])) = Except.ok v
  rw [hexp]
  simp only [Bool.false_eq_true, if_false, Except.map]
  rfl

/-- Witness for C8: set `"a"` with TTL 10 at instant 100, read at 105. -/
theorem C8_get_after_set_witness :
    (((NewMemory 0).Set 100 "a" "v" [WithTTL 10 100]).Get "a" 105).1 =
      Except.ok "v" :=
  C8_get_after_set (NewMemory 0) "a" "v" 10 100 105 (by decide) (by decide)

/-- C9: `Get` reports `KeyNotFound` for an absent key, `KeyExpired` for
a present-but-expired entry, and the stored value otherwise — and in
every case returns the cache unchanged (an expired entry is left in
the table). -/
theorem C9_get_classification (m : memoryCache) (k : String) (now : Int) :
    (lookupA m.items k = none →
      m.Get k now = (Except.error CacheError.keyNotFound, m)) ∧
    (∀ i, lookupA m.items k = some i → i.isExpired now = true →
      m.Get k now = (Except.error CacheError.keyExpired, m)) ∧
    (∀ i, lookupA m.items k = some i → i.isExpired now = false →
      m.Get k now = (Except.ok i.value, m)) := by
  refine ⟨fun h => ?_, fun i hi hexp => ?_, fun i hi hexp => ?_⟩
  · simp [memoryCache.Get, getValue, getItem, h, Except.map]
  · simp [memoryCache.Get, getValue, getItem, hi, hexp, Except.map]
  · simp [memoryCache.Get, getValue, getItem, hi, hexp, Except.map]

/-- Witness for C9 at the expired case: the entry stays in the table. -/
theorem C9_get_classification_witness :
    cache.memoryCache.Get ⟨[("a", ⟨"1", 5⟩)], 0⟩ "a" 10 =
      (Except.error CacheError.keyExpired, ⟨[("a", ⟨"1", 5⟩)], 0⟩) :=
  (C9_get_classification ⟨[("a", ⟨"1", 5⟩)], 0⟩ "a" 10).2.1 ⟨"1", 5⟩ (by decide) (by decide)

/-- C4: `Enqueue` with a non-expired blacklist entry for the token
leaves the whole state (in particular the pending-item cache)
unchanged; for a non-blacklisted token it stores a pending item with
`retries = 0` under the token, overwriting any previous pending item
and touching no other key and not the blacklist. -/
theorem C4_enqueue_blacklist_drop (s : push.Service) (now : Int) (token : String)
    (ev : push.Event) :
    (∀ i, lookupA s.blacklist token = some i → i.isExpired now = false →
      s.Enqueue now token ev = s) ∧
    ((lookupA s.blacklist token = none ∨
        (∃ i, lookupA s.blacklist token = some i ∧ i.isExpired now = true)) →
      (s.Enqueue now token ev).blacklist = s.blacklist ∧
      lookupA (s.Enqueue now token ev).cache token =
        some { value := { token := token, event := some ev, retries := 0 }, validUntil := 0 } ∧
      (∀ k, k ≠ token →
        lookupA (s.Enqueue now token ev).cache k = lookupA s.cache k)) := by
  constructor
  · intro i hi hexp
    unfold push.Service.Enqueue push.cacheGet
    rw [hi]
    dsimp only
    rw [hexp]
    simp
  · intro hcase
    have hget : ∃ e, push.cacheGet s.blacklist token now = Except.error e := by
      rcases hcase with h | ⟨i, hi, hexp⟩
      · exact ⟨cache.CacheError.keyNotFound, by simp [push.cacheGet, h]⟩
      · exact ⟨cache.CacheError.keyExpired, by simp [push.cacheGet, hi, hexp]⟩
    rcases hget with ⟨e, he⟩
    have henq : s.Enqueue now token ev =
        { s with cache := push.cacheSet 0 s.cache now token ⟨token, some ev, 0⟩ } := by
      unfold push.Service.Enqueue
      rw [he]
    rw [henq]
    refine ⟨rfl, ?_, ?_⟩
    · show lookupA (push.cacheSet 0 s.cache now token _) token = _
      rw [push.cacheSet, lookupA_insertA_self]
      norm_num
    · intro k hk
      show lookupA (push.cacheSet 0 s.cache now token _) k = _
      rw [push.cacheSet]
      exact lookupA_insertA_ne _ _ _ _ hk

/-- Witness for C4: a token with a live blacklist entry is dropped
(the state, pending cache included, is unchanged). -/
theorem C4_enqueue_blacklist_drop_witness :
    push.Service.Enqueue ⟨[], [("t", ⟨(), 50⟩)]⟩ 10 "t" ⟨"msg", []⟩ =
      ⟨[], [("t", ⟨(), 50⟩)]⟩ :=
  (C4_enqueue_blacklist_drop ⟨[], [("t", ⟨(), 50⟩)]⟩ 10 "t" ⟨"msg", []⟩).1
    ⟨(), 50⟩ (by rfl) (by decide)

/-- C5: per failing token of a flush, the retry count is incremented;
once it reaches `maxRetries` the token is blacklisted with the fixed
TTL `now + blacklistTimeout` and the pending item is not re-inserted
(the pending cache is untouched); below the bound the item is
re-inserted via `SetOrFail`, so a pending item stored by an `Enqueue`
that raced in (a non-expired entry for the token) is not overwritten. -/
theorem C5_retry_blacklist_setOrFail (maxRetries : Nat) (blacklistTimeout now : Int)
    (targets : List (String × push.eventWrapper)) (s : push.Service) (token : String)
    (hbt : 0 < blacklistTimeout) :
    ((push.incrementedWrapper targets token).retries ≥ maxRetries →
      (s.handleTokenError maxRetries blacklistTimeout now targets token).cache = s.cache ∧
      lookupA (s.handleTokenError maxRetries blacklistTimeout now targets token).blacklist
          token = some { value := (), validUntil := now + blacklistTimeout } ∧
      (∀ k, k ≠ token →
        lookupA (s.handleTokenError maxRetries blacklistTimeout now targets token).blacklist
            k = lookupA s.blacklist k)) ∧
    ((push.incrementedWrapper targets token).retries < maxRetries →
      (s.handleTokenError maxRetries blacklistTimeout now targets token).blacklist =
        s.blacklist ∧
      (∀ i, lookupA s.cache token = some i → i.isExpired now = false →
        (s.handleTokenError maxRetries blacklistTimeout now targets token).cache = s.cache) ∧
      ((lookupA s.cache token = none ∨
          (∃ i, lookupA s.cache token = some i ∧ i.isExpired now = true)) →
        lookupA (s.handleTokenError maxRetries blacklistTimeout now targets token).cache
            token = some { value := push.incrementedWrapper targets token, validUntil := 0 } ∧
        (∀ k, k ≠ token →
          lookupA (s.handleTokenError maxRetries blacklistTimeout now targets token).cache
              k = lookupA s.cache k))) := by
  constructor
  · intro hge
    unfold push.Service.handleTokenError
    rw [if_pos hge]
    refine ⟨rfl, ?_, ?_⟩
    · show lookupA (push.cacheSet blacklistTimeout s.blacklist now token ()) token = _
      rw [push.cacheSet, lookupA_insertA_self, if_pos hbt]
    · intro k hk
      show lookupA (push.cacheSet blacklistTimeout s.blacklist now token ()) k = _
      rw [push.cacheSet]
      exact lookupA_insertA_ne _ _ _ _ hk
  · intro hlt
    unfold push.Service.handleTokenError
    rw [if_neg (not_le.mpr hlt)]
    refine ⟨?_, ?_, ?_⟩
    · cases hsof : push.cacheSetOrFail 0 s.cache now token
        (push.incrementedWrapper targets token) <;> rfl
    · intro i hi hexp
      have hsof : push.cacheSetOrFail 0 s.cache now token
          (push.incrementedWrapper targets token) =
            Except.error cache.CacheError.keyExists := by
        unfold push.cacheSetOrFail
        rw [hi]
        dsimp only
        rw [hexp]
        simp
      rw [hsof]
    · intro hcase
      have hsof : push.cacheSetOrFail 0 s.cache now token
          (push.incrementedWrapper targets token) =
            Except.ok (push.cacheSet 0 s.cache now token
              (push.incrementedWrapper targets token)) := by
        rcases hcase with h | ⟨i, hi, hexp⟩
        · unfold push.cacheSetOrFail
          rw [h]
        · unfold push.cacheSetOrFail
          rw [hi]
          dsimp only
          rw [hexp]
          simp
      rw [hsof]
      constructor
      · show lookupA (push.cacheSet 0 s.cache now token _) token = _
        rw [push.cacheSet, lookupA_insertA_self]
        norm_num
      · intro k hk
        show lookupA (push.cacheSet 0 s.cache now token _) k = _
        rw [push.cacheSet]
        exact lookupA_insertA_ne _ _ _ _ hk

/-- Witness for C5 at the blacklist bound: a token at retry count 2
with `maxRetries = 3` fails again — it is blacklisted until `110` and
the pending cache stays empty. -/
theorem C5_retry_blacklist_setOrFail_witness :
    (push.Service.handleTokenError 3 100 10
        [("t", ⟨"t", some ⟨"msg", []⟩, 2⟩)] ⟨[], []⟩ "t").cache = [] ∧
    lookupA (push.Service.handleTokenError 3 100 10
        [("t", ⟨"t", some ⟨"msg", []⟩, 2⟩)] ⟨[], []⟩ "t").blacklist "t" =
      some { value := (), validUntil := 110 } ∧
    (∀ k, k ≠ "t" →
      lookupA (push.Service.handleTokenError 3 100 10
          [("t", ⟨"t", some ⟨"msg", []⟩, 2⟩)] ⟨[], []⟩ "t").blacklist k =
        lookupA (⟨[], []⟩ : push.Service).blacklist k) :=
  (C5_retry_blacklist_setOrFail 3 100 10 [("t", ⟨"t", some ⟨"msg", []⟩, 2⟩)]
      ⟨[], []⟩ "t" (by decide)).1 (by decide)

/-- C6: `Send` succeeds iff the device has a registry entry and at
least one of its connections accepted the frame (so a full buffer on
some but not all connections does not fail the call); the registry is
updated pointwise by `trySend`, and every live connection with buffer
space receives the frame at the end of its buffer; a device all of
whose connections are closed (zero live connections) gets an error. -/
theorem C6_send_delivery_and_error (s : sse.Service) (dev : String) (ev : sse.Event) :
    ((s.Send dev ev).1 = Except.ok () ↔
      (∃ conns, lookupA s.connections dev = some conns ∧
        0 < (sse.sendLoop { name := ev.type, data := ev.data } conns).1)) ∧
    (∀ conns, lookupA s.connections dev = some conns →
      lookupA (s.Send dev ev).2.connections dev =
        some (sse.sendLoop { name := ev.type, data := ev.data } conns).2 ∧
      (sse.sendLoop { name := ev.type, data := ev.data } conns).2 =
        conns.map (fun c => (sse.trySend { name := ev.type, data := ev.data } c).2) ∧
      (∀ c ∈ conns, c.closeSignal = false →
        c.channel.length < sse.channelCapacity →
        (sse.trySend { name := ev.type, data := ev.data } c).2.channel =
          c.channel ++ [{ name := ev.type, data := ev.data }])) ∧
    (∀ conns, lookupA s.connections dev = some conns →
      (∀ c ∈ conns, c.closeSignal = true) →
      (s.Send dev ev).1 = Except.error sse.SendError.noActiveConnection) := by
  refine ⟨?_, ?_, ?_⟩
  · unfold sse.Service.Send
    cases hl : lookupA s.connections dev with
    | none =>
      simp
    | some conns =>
      dsimp only
      by_cases hz : (sse.sendLoop { name := ev.type, data := ev.data } conns).1 = 0
      · rw [if_pos hz]
        simp [hz]
      · rw [if_neg hz]
        constructor
        · intro _
          exact ⟨conns, rfl, Nat.pos_of_ne_zero hz⟩
        · intro _
          rfl
  · intro conns hl
    refine ⟨?_, sse.sendLoop_snd _ _, ?_⟩
    · unfold sse.Service.Send
      rw [hl]
      dsimp only
      by_cases hz : (sse.sendLoop { name := ev.type, data := ev.data } conns).1 = 0
      · rw [if_pos hz]
        exact lookupA_insertA_self _ _ _
      · rw [if_neg hz]
        exact lookupA_insertA_self _ _ _
    · intro c _ hlive hspace
      unfold sse.trySend
      rw [hlive]
      simp only [Bool.false_eq_true, if_false]
      rw [if_pos hspace]
  · intro conns hl hclosed
    unfold sse.Service.Send
    rw [hl]
    dsimp only
    rw [if_pos (sse.sendLoop_fst_zero_of_closed _ conns hclosed)]

/-- Witness for C6 at the spec's scenario 4: two live connections with
free buffers for device `D` — the call succeeds and the first
connection's buffer receives the frame. -/
theorem C6_send_delivery_and_error_witness :
    ((sse.Service.Send ⟨[("D", [⟨"c1", [], false⟩, ⟨"c2", [], false⟩])]⟩ "D"
        ⟨"msg", []⟩).1 = Except.ok ()) ∧
    (sse.trySend { name := "msg", data := [] } ⟨"c1", [], false⟩).2.channel =
      ([] : List sse.eventWrapper) ++ [{ name := "msg", data := [] }] :=
  ⟨(C6_send_delivery_and_error ⟨[("D", [⟨"c1", [], false⟩, ⟨"c2", [], false⟩])]⟩ "D"
      ⟨"msg", []⟩).1.mpr ⟨[⟨"c1", [], false⟩, ⟨"c2", [], false⟩], by decide, by decide⟩,
   ((C6_send_delivery_and_error ⟨[("D", [⟨"c1", [], false⟩, ⟨"c2", [], false⟩])]⟩ "D"
      ⟨"msg", []⟩).2.1 [⟨"c1", [], false⟩, ⟨"c2", [], false⟩] (by decide)).2.2
      ⟨"c1", [], false⟩ (by decide) (by decide) (by decide)⟩

/-- C10: `GetAndDelete` removes the entry even when it reports
`KeyExpired`: afterwards the key is absent and a `Get` reports
`KeyNotFound`. -/
theorem C10_getAndDelete_removes (m : memoryCache) (k : String) (now now2 : Int)
    (h : (m.GetAndDelete k now).1 = Except.error CacheError.keyExpired) :
    lookupA (m.GetAndDelete k now).2.items k = none ∧
    ((m.GetAndDelete k now).2.Get k now2).1 = Except.error CacheError.keyNotFound := by
  constructor
  · exact lookupA_eraseA_self m.items k
  · show getValue (lookupA (eraseA m.items k) k) now2 = _
    rw [lookupA_eraseA_self]
    rfl

/-- Witness for C10: `GetAndDelete` on an expired entry reports
`KeyExpired`, yet the key is gone and `Get` then reports `KeyNotFound`. -/
theorem C10_getAndDelete_removes_witness :
    lookupA (cache.memoryCache.GetAndDelete ⟨[("a", ⟨"1", 5⟩)], 0⟩ "a" 10).2.items "a" =
      none ∧
    ((cache.memoryCache.GetAndDelete ⟨[("a", ⟨"1", 5⟩)], 0⟩ "a" 10).2.Get "a" 10).1 =
      Except.error CacheError.keyNotFound :=
  C10_getAndDelete_removes ⟨[("a", ⟨"1", 5⟩)], 0⟩ "a" 10 10 (by rfl)

/-- C7: the router queue capacity is 128; `Notify` on a queue already
holding 128 events returns the queue-full error and leaves the queue
unchanged, and on a queue with space it succeeds, appending the event. -/
theorem C7_notify_queueFull (s : events.Service) (u : String) (d : Option String)
    (ev : events.Event) :
    events.queueCapacity = 128 ∧
    (s.queue.length = 128 →
      s.Notify u d ev = (Except.error events.NotifyError.queueFull, s)) ∧
    (s.queue.length < 128 →
      s.Notify u d ev =
        (Except.ok (), ⟨s.queue ++ [{ UserID := u, DeviceID := d, Event := ev }]⟩)) := by
  refine ⟨rfl, ?_, ?_⟩
  · intro h
    unfold events.Service.Notify
    rw [if_neg]
    rw [h, events.queueCapacity]
    omega
  · intro h
    unfold events.Service.Notify
    rw [if_pos]
    rw [events.queueCapacity]
    omega

/-- Witness for C7 at the spec's scenario 5: a queue of 128 pending
events rejects the 129th with the queue-full error, unchanged; an
empty queue accepts. -/
theorem C7_notify_queueFull_witness :
    (events.Service.Notify ⟨List.replicate 128 ⟨"u", none, ⟨"e", []⟩⟩⟩ "u" none ⟨"e", []⟩ =
      (Except.error events.NotifyError.queueFull,
        ⟨List.replicate 128 ⟨"u", none, ⟨"e", []⟩⟩⟩)) ∧
    (events.Service.Notify ⟨[]⟩ "u" none ⟨"e", []⟩ =
      (Except.ok (), ⟨[⟨"u", none, ⟨"e", []⟩⟩]⟩)) :=
  ⟨(C7_notify_queueFull ⟨List.replicate 128 ⟨"u", none, ⟨"e", []⟩⟩⟩ "u" none ⟨"e", []⟩).2.1
      (by simp),
   (C7_notify_queueFull ⟨[]⟩ "u" none ⟨"e", []⟩).2.2 (by simp)⟩

end AsgServer
